import Mathlib

/-!
Shallow embedding of src/inventory_sync.py: the stock reconciler
(`sync_product_inventory`, modelled per product by `sync_product_step`) and the
provider failover matcher (`attempt_provider_failover`).

Python dictionaries holding variant data become Lean structures; the option
mapping of a variant becomes a list of (category, value) string pairs; the
normalisation `tuple(sorted(v.options.items()))` becomes `normKey`, a merge
sort under the lexicographic order `pairLe` on string pairs.  Fallible client
calls return `Option`.
-/

namespace InventorySync

/-- A variant of a product as stored in the shop: id, title, price, enabled
flag and the option mapping (category to value pairs), as read from the
product dictionaries in `sync_product_inventory`. -/
structure StoreVariant where
  id : Nat
  title : String
  price : Nat
  is_enabled : Bool
  options : List (String × String)
  deriving Repr, DecidableEq

/-- A variant of a provider catalog as returned by `get_blueprint_variants`:
its provider-scoped id and option mapping. -/
structure CatalogVariant where
  id : Nat
  options : List (String × String)
  deriving Repr, DecidableEq

/-- A candidate print provider from blueprint data (id and title). -/
structure Provider where
  id : Nat
  title : String
  deriving Repr, DecidableEq

/-- Blueprint data as returned by `get_blueprint_details`: the ordered list
of candidate providers. -/
structure Blueprint where
  print_providers : List Provider
  deriving Repr, DecidableEq

/-- A product as returned by `get_all_products`. -/
structure Product where
  id : Nat
  title : String
  blueprint_id : Nat
  print_provider_id : Nat
  variants : List StoreVariant
  deriving Repr, DecidableEq

/-- One entry of an outbound variants payload, as built at lines 42-46 and
108-112 of the source. -/
structure PayloadVariant where
  id : Nat
  price : Nat
  is_enabled : Bool
  deriving Repr, DecidableEq

/-- The outbound update payload: either a provider switch bundled with a
remapped variant list, or a variants-only enabled/price list. -/
inductive UpdatePayload where
  | providerSwitch (print_provider_id : Nat) (variants : List PayloadVariant)
  | variantsOnly (variants : List PayloadVariant)
  deriving Repr, DecidableEq

/-- Outcome of the per-product body of `sync_product_inventory`:
the live catalog fetch failed (`continue` at line 88), stock already in sync
(`continue` at line 116), or an update payload is sent. -/
inductive SyncResult where
  | fetchFailed
  | noChange
  | update (payload : UpdatePayload)
  deriving Repr, DecidableEq

/-- The api client, abstracted as the record of the service operations the
source calls; `none` models a falsy or key-missing response. -/
structure Client where
  get_all_products : Option (List Product)
  get_blueprint_details : Nat → Option Blueprint
  get_blueprint_variants : Nat → Nat → Option (List CatalogVariant)

/-- Lexicographic comparison of (category, value) string pairs, as Python
`sorted` compares tuples of strings. -/
def pairLe (a b : String × String) : Bool :=
  if a.1 < b.1 then true
  else if b.1 < a.1 then false
  else decide (a.2 ≤ b.2)

/-- `tuple(sorted(options.items()))` from lines 33 and 38: the option pairs
in sorted order, the normalized matching key. -/
def normKey (opts : List (String × String)) : List (String × String) :=
  opts.mergeSort pairLe

theorem pairLe_iff (a b : String × String) :
    pairLe a b = true ↔ a.1 < b.1 ∨ (a.1 = b.1 ∧ a.2 ≤ b.2) := by
  unfold pairLe
  split_ifs with h1 h2
  · simp [h1]
  · simp only [false_iff]
    push_neg
    refine ⟨h1, fun he => absurd (he ▸ h2) (lt_irrefl _)⟩
  · have he : a.1 = b.1 := le_antisymm (not_lt.mp h2) (not_lt.mp h1)
    simp [h1, he]

theorem pairLe_trans (a b c : String × String) :
    pairLe a b → pairLe b c → pairLe a c := by
  intro hab hbc
  rw [pairLe_iff] at hab hbc ⊢
  rcases hab with h1 | ⟨h1, h1v⟩ <;> rcases hbc with h2 | ⟨h2, h2v⟩
  · exact Or.inl (lt_trans h1 h2)
  · exact Or.inl (h2 ▸ h1)
  · exact Or.inl (h1 ▸ h2)
  · exact Or.inr ⟨h1.trans h2, le_trans h1v h2v⟩

theorem pairLe_total (a b : String × String) : (pairLe a b || pairLe b a) = true := by
  rw [Bool.or_eq_true, pairLe_iff, pairLe_iff]
  rcases lt_trichotomy a.1 b.1 with h | h | h
  · exact Or.inl (Or.inl h)
  · rcases le_total a.2 b.2 with hv | hv
    · exact Or.inl (Or.inr ⟨h, hv⟩)
    · exact Or.inr (Or.inr ⟨h.symm, hv⟩)
  · exact Or.inr (Or.inl h)

theorem pairLe_antisymm (a b : String × String) :
    pairLe a b = true → pairLe b a = true → a = b := by
  intro hab hba
  rw [pairLe_iff] at hab hba
  rcases hab with h1 | ⟨h1, h1v⟩ <;> rcases hba with h2 | ⟨h2, h2v⟩
  · exact absurd h2 (asymm h1)
  · exact absurd (h2 ▸ h1) (lt_irrefl _)
  · exact absurd (h1 ▸ h2) (lt_irrefl _)
  · exact Prod.ext h1 (le_antisymm h1v h2v)

/-- Sorting is invariant under permutation of the option pairs: the
normalized key depends only on the multiset of (category, value) pairs. -/
theorem normKey_perm_eq (l1 l2 : List (String × String)) (h : l1.Perm l2) :
    normKey l1 = normKey l2 := by
  haveI : IsAntisymm (String × String) (fun a b => pairLe a b = true) :=
    ⟨pairLe_antisymm⟩
  exact List.eq_of_perm_of_sorted
    ((List.mergeSort_perm l1 pairLe).trans (h.trans (List.mergeSort_perm l2 pairLe).symm))
    (List.sorted_mergeSort pairLe_trans pairLe_total l1)
    (List.sorted_mergeSort pairLe_trans pairLe_total l2)

/-- Lookup in the candidate index built at line 33.  The Python dictionary
comprehension lets a later catalog entry overwrite an earlier one with the
same normalized key, so lookup returns the last catalog variant whose
normalized option key equals the requested key. -/
def lookupByOptions (key : List (String × String)) (catalog : List CatalogVariant) :
    Option CatalogVariant :=
  catalog.reverse.find? (fun v => decide (normKey v.options = key))

/-- The remapping loop of lines 35-50: walk the store variants in order; for
each, look its normalized option key up in the candidate catalog.  On a hit,
emit the candidate variant id with the store price and enabled flag; on a
miss, abort this candidate (`all_variants_mapped = False` and `break`). -/
def remapVariants (catalog : List CatalogVariant) :
    List StoreVariant → Option (List PayloadVariant)
  | [] => some []
  | sv :: rest =>
    match lookupByOptions (normKey sv.options) catalog with
    | none => none
    | some matched_variant =>
      match remapVariants catalog rest with
      | none => none
      | some tail =>
        some ({ id := matched_variant.id, price := sv.price,
                is_enabled := sv.is_enabled } :: tail)

/-- The candidate loop of lines 21-57: providers in blueprint order; skip the
current provider; skip a candidate whose catalog is unavailable; skip a
candidate some store variant fails to match in; return the first candidate
that remaps every store variant. -/
def failoverLoop (client : Client) (blueprint_id current_provider_id : Nat)
    (all_store_variants : List StoreVariant) :
    List Provider → Option Nat × Option (List PayloadVariant)
  | [] => (none, none)
  | provider :: rest =>
    if provider.id = current_provider_id then
      failoverLoop client blueprint_id current_provider_id all_store_variants rest
    else
      match client.get_blueprint_variants blueprint_id provider.id with
      | none => failoverLoop client blueprint_id current_provider_id all_store_variants rest
      | some catalog =>
        match remapVariants catalog all_store_variants with
        | none => failoverLoop client blueprint_id current_provider_id all_store_variants rest
        | some new_variants_payload => (some provider.id, some new_variants_payload)

/-- `attempt_provider_failover` (lines 6-57): fetch blueprint data, fail on a
falsy response, otherwise run the candidate loop over the blueprint provider
list. -/
def attempt_provider_failover (client : Client) (product : Product)
    (all_store_variants : List StoreVariant) : Option Nat × Option (List PayloadVariant) :=
  match client.get_blueprint_details product.blueprint_id with
  | none => (none, none)
  | some blueprint_data =>
    failoverLoop client product.blueprint_id product.print_provider_id
      all_store_variants blueprint_data.print_providers

/-- The set of ids built at line 90 from the live catalog snapshot. -/
def availableIds (live : List CatalogVariant) : List Nat :=
  live.map (fun v => v.id)

/-- The per-variant target enabled state of lines 97-106: enabled but absent
from the live snapshot becomes disabled; disabled but present becomes
enabled; anything else keeps its current state. -/
def newEnabledStatus (avail : List Nat) (v : StoreVariant) : Bool :=
  if v.is_enabled = true ∧ v.id ∉ avail then false
  else if v.is_enabled = false ∧ v.id ∈ avail then true
  else v.is_enabled

/-- Whether the variant changes classification (sets `requires_update` at
lines 102 and 106). -/
def variantChanged (avail : List Nat) (v : StoreVariant) : Bool :=
  decide ((v.is_enabled = true ∧ v.id ∉ avail) ∨ (v.is_enabled = false ∧ v.id ∈ avail))

/-- Whether the variant is newly out of stock (sets `potential_failover_needed`
at line 100). -/
def newlyOutOfStock (avail : List Nat) (v : StoreVariant) : Bool :=
  decide (v.is_enabled = true ∧ v.id ∉ avail)

/-- One payload entry of lines 108-112. -/
def updateEntry (avail : List Nat) (v : StoreVariant) : PayloadVariant :=
  { id := v.id, price := v.price, is_enabled := newEnabledStatus avail v }

/-- The `variants_for_update` list accumulated by the loop of lines 96-112. -/
def variantsForUpdate (avail : List Nat) (vs : List StoreVariant) : List PayloadVariant :=
  vs.map (updateEntry avail)

/-- The body of the per-product loop of `sync_product_inventory`
(lines 76-131): fetch the live snapshot for the current provider, classify
every variant, and choose between no change, a provider switch and the
disable/restore list.  The guard `if new_provider_id and new_variants` at
line 121 is Python truthiness: the switch is sent only when the returned
provider id is a nonzero integer and the returned list is nonempty. -/
def sync_product_step (client : Client) (product : Product) : SyncResult :=
  match client.get_blueprint_variants product.blueprint_id product.print_provider_id with
  | none => .fetchFailed
  | some live =>
    let avail := availableIds live
    let variants_for_update := variantsForUpdate avail product.variants
    let requires_update := product.variants.any (variantChanged avail)
    let potential_failover_needed := product.variants.any (newlyOutOfStock avail)
    if requires_update = false then .noChange
    else if potential_failover_needed then
      match attempt_provider_failover client product product.variants with
      | (some new_provider_id, some new_variants) =>
        if new_provider_id ≠ 0 ∧ new_variants ≠ [] then
          .update (.providerSwitch new_provider_id new_variants)
        else .update (.variantsOnly variants_for_update)
      | _ => .update (.variantsOnly variants_for_update)
    else .update (.variantsOnly variants_for_update)

/-- `sync_product_inventory` (lines 60-137) restricted to its decisions: the
per-product results in product order, or `none` when the product listing is
falsy or lacks its data key (early return at lines 69-71). -/
def sync_product_inventory (client : Client) : Option (List SyncResult) :=
  match client.get_all_products with
  | none => none
  | some store_products => some (store_products.map (sync_product_step client))

/-- A candidate the loop of lines 21-57 passes over: it is the current
provider, or its catalog is unavailable, or some store variant has no match
in its catalog. -/
def rejectsCandidate (client : Client) (blueprint_id current_provider_id : Nat)
    (svs : List StoreVariant) (q : Provider) : Prop :=
  q.id = current_provider_id ∨
  client.get_blueprint_variants blueprint_id q.id = none ∨
  ∃ c, client.get_blueprint_variants blueprint_id q.id = some c ∧
    remapVariants c svs = none

/-- Fixture: a single size-S store variant, enabled, id 5, price 1000. -/
def svS : StoreVariant := ⟨5, "Tee S", 1000, true, [("size", "S")]⟩

/-- Fixture: the same logical variant, currently disabled. -/
def svRestock : StoreVariant := ⟨5, "Tee S", 1000, false, [("size", "S")]⟩

/-- Fixture: a store variant with an empty option mapping. -/
def svNoOpts : StoreVariant := ⟨5, "Tee S", 1000, true, []⟩

/-- Fixture: product 11 on blueprint 3 with current provider 1 and the one
variant `svS`. -/
def demoProduct : Product := ⟨11, "Tee", 3, 1, [svS]⟩

/-- Fixture: product 13 whose one variant is currently disabled. -/
def restockProduct : Product := ⟨13, "Tee", 3, 1, [svRestock]⟩

/-- Fixture: product 14 whose one variant has an empty option mapping. -/
def noOptsProduct : Product := ⟨14, "Tee", 3, 1, [svNoOpts]⟩

/-- Fixture client: blueprint 3 lists providers 1 (current), 7 and 8; both
alternatives fully stock the size-S variant; the live catalog of provider 1
is empty, so `svS` is out of stock. -/
def demoClient : Client :=
  { get_all_products := none
    get_blueprint_details := fun b =>
      if b = 3 then some ⟨[⟨1, "Current"⟩, ⟨7, "AltA"⟩, ⟨8, "AltB"⟩]⟩ else none
    get_blueprint_variants := fun b p =>
      if b = 3 ∧ p = 7 then some [⟨99, [("size", "S")]⟩]
      else if b = 3 ∧ p = 8 then some [⟨77, [("size", "S")]⟩]
      else if b = 3 ∧ p = 1 then some []
      else none }

/-- Fixture client: the only alternative provider for blueprint 3 has id 0,
which Python truthiness treats as falsy at line 121. -/
def zeroIdClient : Client :=
  { get_all_products := none
    get_blueprint_details := fun b =>
      if b = 3 then some ⟨[⟨0, "ZeroId"⟩]⟩ else none
    get_blueprint_variants := fun b p =>
      if b = 3 ∧ p = 0 then some [⟨99, [("size", "S")]⟩]
      else if b = 3 ∧ p = 1 then some []
      else none }

/-- Fixture client: the live catalog of provider 1 stocks variant id 5, so a
product holding `svS` is in sync and one holding `svRestock` restocks. -/
def stockedClient : Client :=
  { get_all_products := none
    get_blueprint_details := fun b =>
      if b = 3 then some ⟨[⟨1, "Current"⟩, ⟨7, "AltA"⟩]⟩ else none
    get_blueprint_variants := fun b p =>
      if b = 3 ∧ p = 1 then some [⟨5, [("size", "S")]⟩]
      else if b = 3 ∧ p = 7 then some [⟨99, [("size", "S")]⟩]
      else none }

/-- Fixture client: the alternative provider 7 for blueprint 3 carries a
catalog variant whose option mapping is empty; the live catalog of the
current provider 1 is empty. -/
def noOptsClient : Client :=
  { get_all_products := none
    get_blueprint_details := fun b =>
      if b = 3 then some ⟨[⟨1, "Current"⟩, ⟨7, "AltA"⟩]⟩ else none
    get_blueprint_variants := fun b p =>
      if b = 3 ∧ p = 7 then some [⟨99, []⟩]
      else if b = 3 ∧ p = 1 then some []
      else none }

/-- A successful remapping covers every store variant: the payload has one
entry per store variant. -/
theorem remapVariants_eq_some_length (catalog : List CatalogVariant)
    (svs : List StoreVariant) (payload : List PayloadVariant)
    (h : remapVariants catalog svs = some payload) : payload.length = svs.length := by
  induction svs generalizing payload with
  | nil =>
    simp only [remapVariants, Option.some.injEq] at h
    subst h
    rfl
  | cons sv rest ih =>
    rw [remapVariants] at h
    split at h
    · exact absurd h (by simp)
    · split at h
      · exact absurd h (by simp)
      · rename_i tail hr
        simp only [Option.some.injEq] at h
        subst h
        simp [ih tail hr]

/-- A successful remapping found a catalog match for every store variant. -/
theorem remapVariants_eq_some_lookup (catalog : List CatalogVariant)
    (svs : List StoreVariant) (payload : List PayloadVariant)
    (h : remapVariants catalog svs = some payload) :
    ∀ sv ∈ svs, (lookupByOptions (normKey sv.options) catalog).isSome = true := by
  induction svs generalizing payload with
  | nil =>
    intro sv hsv
    cases hsv
  | cons sv0 rest ih =>
    rw [remapVariants] at h
    rcases hl : lookupByOptions (normKey sv0.options) catalog with _ | mv
    · simp only [hl] at h
      exact Option.noConfusion h
    · simp only [hl] at h
      rcases hr : remapVariants catalog rest with _ | tail
      · simp only [hr] at h
        exact Option.noConfusion h
      · simp only [hr] at h
        intro sv hsv
        rcases List.mem_cons.mp hsv with rfl | hmem
        · rw [hl]
          rfl
        · exact ih tail hr sv hmem

/-- A pair result of the candidate loop with both components present comes
from some candidate whose catalog remapped every store variant, and that
candidate is not the current provider. -/
theorem failoverLoop_eq_some (client : Client) (blueprint_id current_provider_id : Nat)
    (svs : List StoreVariant) (ps : List Provider) (npid : Nat)
    (payload : List PayloadVariant)
    (h : failoverLoop client blueprint_id current_provider_id svs ps =
      (some npid, some payload)) :
    npid ≠ current_provider_id ∧
    ∃ catalog, client.get_blueprint_variants blueprint_id npid = some catalog ∧
      remapVariants catalog svs = some payload := by
  induction ps with
  | nil =>
    rw [failoverLoop] at h
    exact absurd h (by simp)
  | cons p rest ih =>
    rw [failoverLoop] at h
    split at h
    · exact ih h
    · rename_i hne
      split at h
      · exact ih h
      · rename_i catalog hcat
        split at h
        · exact ih h
        · rename_i pay hremap
          simp only [Prod.mk.injEq, Option.some.injEq] at h
          obtain ⟨rfl, rfl⟩ := h
          exact ⟨hne, catalog, hcat, hremap⟩

/-- C2: a provider-switch result is all-or-nothing.  Whenever the matcher
returns a candidate provider together with a remapped list, that candidate
is distinct from the current provider, its catalog remapped the whole store
variant list (so every store variant found a match there), and the remapped
list has exactly one entry per store variant. -/
theorem failover_switch_all_or_nothing (client : Client) (product : Product)
    (svs : List StoreVariant) (npid : Nat) (payload : List PayloadVariant)
    (h : attempt_provider_failover client product svs = (some npid, some payload)) :
    payload.length = svs.length ∧
    npid ≠ product.print_provider_id ∧
    ∃ catalog, client.get_blueprint_variants product.blueprint_id npid = some catalog ∧
      remapVariants catalog svs = some payload ∧
      ∀ sv ∈ svs, (lookupByOptions (normKey sv.options) catalog).isSome = true := by
  rw [attempt_provider_failover] at h
  split at h
  · exact absurd h (by simp)
  · obtain ⟨hne, catalog, hcat, hremap⟩ :=
      failoverLoop_eq_some client product.blueprint_id product.print_provider_id
        svs _ npid payload h
    exact ⟨remapVariants_eq_some_length catalog svs payload hremap, hne, catalog, hcat,
      hremap, remapVariants_eq_some_lookup catalog svs payload hremap⟩

unseal List.merge List.mergeSort in
/-- Witness for C2 at the demo fixture: the matcher switches product 11 to
provider 7 and the remapped list has the store variant count. -/
theorem failover_switch_all_or_nothing_witness :
    attempt_provider_failover demoClient demoProduct [svS] =
      (some 7, some [{ id := 99, price := 1000, is_enabled := true }]) ∧
    ([{ id := 99, price := 1000, is_enabled := true }] : List PayloadVariant).length =
      ([svS] : List StoreVariant).length :=
  ⟨rfl, (failover_switch_all_or_nothing demoClient demoProduct [svS] 7
    [{ id := 99, price := 1000, is_enabled := true }] rfl).1⟩

/-- C8: frame of a remapped entry.  The i-th entry of a successful remapping
is exactly the record built from the matched candidate variant id together
with the i-th store variant price and enabled flag; no other store variant
field appears in it. -/
theorem remap_entry_frame (catalog : List CatalogVariant)
    (svs : List StoreVariant) (payload : List PayloadVariant)
    (h : remapVariants catalog svs = some payload)
    (i : Nat) (hi : i < svs.length) (hp : i < payload.length) :
    ∃ cv, lookupByOptions (normKey (svs.get ⟨i, hi⟩).options) catalog = some cv ∧
      payload.get ⟨i, hp⟩ =
        { id := cv.id, price := (svs.get ⟨i, hi⟩).price,
          is_enabled := (svs.get ⟨i, hi⟩).is_enabled } := by
  induction svs generalizing payload i with
  | nil => exact absurd hi (Nat.not_lt_zero i)
  | cons sv0 rest ih =>
    rw [remapVariants] at h
    rcases hl : lookupByOptions (normKey sv0.options) catalog with _ | mv
    · simp only [hl] at h
      exact Option.noConfusion h
    · simp only [hl] at h
      rcases hr : remapVariants catalog rest with _ | tail
      · simp only [hr] at h
        exact Option.noConfusion h
      · simp only [hr, Option.some.injEq] at h
        subst h
        cases i with
        | zero => exact ⟨mv, hl, rfl⟩
        | succ j =>
          exact ih tail hr j (Nat.lt_of_succ_lt_succ hi) (Nat.lt_of_succ_lt_succ hp)

unseal List.merge List.mergeSort in
/-- Witness for C8 at the demo fixture: the single remapped entry keeps
price 1000 and the enabled flag of `svS` and takes id 99 from the match. -/
theorem remap_entry_frame_witness :
    ∃ cv, lookupByOptions (normKey svS.options) [⟨99, [("size", "S")]⟩] = some cv ∧
      ([{ id := 99, price := 1000, is_enabled := true }] : List PayloadVariant).get
          ⟨0, by decide⟩ =
        { id := cv.id, price := svS.price, is_enabled := svS.is_enabled } :=
  remap_entry_frame [⟨99, [("size", "S")]⟩] [svS]
    [{ id := 99, price := 1000, is_enabled := true }] rfl 0 (by decide) (by decide)

/-- The candidate loop returns the first candidate, in list order, that is
not the current provider, has an available catalog, and remaps every store
variant; all candidates before it are passed over. -/
theorem failoverLoop_first_fit (client : Client) (blueprint_id current_provider_id : Nat)
    (svs : List StoreVariant) (ps1 ps2 : List Provider) (p : Provider)
    (catalog : List CatalogVariant) (payload : List PayloadVariant)
    (hrej : ∀ q ∈ ps1, rejectsCandidate client blueprint_id current_provider_id svs q)
    (hnp : p.id ≠ current_provider_id)
    (hcat : client.get_blueprint_variants blueprint_id p.id = some catalog)
    (hremap : remapVariants catalog svs = some payload) :
    failoverLoop client blueprint_id current_provider_id svs (ps1 ++ p :: ps2) =
      (some p.id, some payload) := by
  induction ps1 with
  | nil =>
    rw [List.nil_append, failoverLoop, if_neg hnp]
    simp only [hcat, hremap]
  | cons q qs ih =>
    rw [List.cons_append, failoverLoop]
    have hq := hrej q (List.mem_cons_self q qs)
    have ihq := ih fun x hx => hrej x (List.mem_cons_of_mem q hx)
    by_cases hqp : q.id = current_provider_id
    · rw [if_pos hqp]
      exact ihq
    · rw [if_neg hqp]
      rcases hq with hq | hq | ⟨c, hc, hcnone⟩
      · exact absurd hq hqp
      · simp only [hq]
        exact ihq
      · simp only [hc, hcnone]
        exact ihq

/-- C4: first-fit in blueprint order.  If blueprint data lists the providers
as `ps1 ++ p :: ps2`, every candidate in `ps1` is passed over (it is the
current provider, or lacks a catalog, or fails the match) and `p` is a
non-current candidate that remaps every store variant, then the matcher
returns `p`, whatever `ps2` holds — in particular the earlier of two fully
matching candidates wins. -/
theorem failover_first_fit_in_blueprint_order (client : Client) (product : Product)
    (svs : List StoreVariant) (bp : Blueprint) (ps1 ps2 : List Provider) (p : Provider)
    (catalog : List CatalogVariant) (payload : List PayloadVariant)
    (hbp : client.get_blueprint_details product.blueprint_id = some bp)
    (hlist : bp.print_providers = ps1 ++ p :: ps2)
    (hrej : ∀ q ∈ ps1,
      rejectsCandidate client product.blueprint_id product.print_provider_id svs q)
    (hnp : p.id ≠ product.print_provider_id)
    (hcat : client.get_blueprint_variants product.blueprint_id p.id = some catalog)
    (hremap : remapVariants catalog svs = some payload) :
    attempt_provider_failover client product svs = (some p.id, some payload) := by
  rw [attempt_provider_failover]
  simp only [hbp, hlist]
  exact failoverLoop_first_fit client product.blueprint_id product.print_provider_id
    svs ps1 ps2 p catalog payload hrej hnp hcat hremap

unseal List.merge List.mergeSort in
/-- Witness for C4 at the demo fixture: providers 7 and 8 can both fully
match, and the matcher picks 7, which the blueprint lists first. -/
theorem failover_first_fit_in_blueprint_order_witness :
    attempt_provider_failover demoClient demoProduct [svS] =
      (some 7, some [{ id := 99, price := 1000, is_enabled := true }]) :=
  failover_first_fit_in_blueprint_order demoClient demoProduct [svS]
    ⟨[⟨1, "Current"⟩, ⟨7, "AltA"⟩, ⟨8, "AltB"⟩]⟩ [⟨1, "Current"⟩] [⟨8, "AltB"⟩]
    ⟨7, "AltA"⟩ [⟨99, [("size", "S")]⟩]
    [{ id := 99, price := 1000, is_enabled := true }] rfl rfl
    (by
      intro q hq
      rcases List.mem_singleton.mp hq with rfl
      exact Or.inl rfl)
    (by decide) rfl rfl

/-- C5: matching is order-independent on the (category, value) pairs.  Two
option mappings holding the same pairs in any order normalize to the same
key, and a candidate variant carrying the permuted mapping is found by the
index lookup for a store variant carrying the original one. -/
theorem option_matching_order_independent
    (opts1 opts2 : List (String × String)) (hperm : opts1.Perm opts2)
    (cs : List CatalogVariant) (cv : CatalogVariant) (hcv : cv.options = opts2) :
    normKey opts1 = normKey opts2 ∧
    lookupByOptions (normKey opts1) (cs ++ [cv]) = some cv := by
  have hk := normKey_perm_eq opts1 opts2 hperm
  refine ⟨hk, ?_⟩
  rw [lookupByOptions, List.reverse_append]
  simp [List.find?_cons, hcv, hk]

/-- Witness for C5: size/color in one order matches color/size in the
other. -/
theorem option_matching_order_independent_witness :
    ([(("size" : String), ("L" : String)), ("color", "Black")]).Perm
      [("color", "Black"), ("size", "L")] ∧
    lookupByOptions (normKey [(("size" : String), ("L" : String)), ("color", "Black")])
      [⟨99, [("color", "Black"), ("size", "L")]⟩] =
      some ⟨99, [("color", "Black"), ("size", "L")]⟩ :=
  ⟨by decide,
    (option_matching_order_independent [("size", "L"), ("color", "Black")]
      [("color", "Black"), ("size", "L")] (by decide) []
      ⟨99, [("color", "Black"), ("size", "L")]⟩ rfl).2⟩

/-- C1: the reconciler classifies positionwise.  The i-th entry of
`variants_for_update` is computed from the i-th store variant alone: it
keeps its id and price, turns the enabled flag off exactly when the variant
is enabled but absent from the live available-id set, turns it on exactly
when it is disabled but present, and keeps it otherwise. -/
theorem reconcile_classifies_each_variant (avail : List Nat)
    (vs : List StoreVariant) (i : Nat) (hi : i < vs.length)
    (hp : i < (variantsForUpdate avail vs).length) :
    (variantsForUpdate avail vs).get ⟨i, hp⟩ =
      { id := (vs.get ⟨i, hi⟩).id, price := (vs.get ⟨i, hi⟩).price,
        is_enabled :=
          if (vs.get ⟨i, hi⟩).is_enabled = true ∧ (vs.get ⟨i, hi⟩).id ∉ avail then
            false
          else if (vs.get ⟨i, hi⟩).is_enabled = false ∧ (vs.get ⟨i, hi⟩).id ∈ avail then
            true
          else (vs.get ⟨i, hi⟩).is_enabled } := by
  simp [variantsForUpdate, updateEntry, newEnabledStatus]

/-- Witness for C1: an enabled variant with id 5 absent from the available
set gets target state disabled. -/
theorem reconcile_classifies_each_variant_witness :
    (variantsForUpdate [1] [svS]).get ⟨0, by decide⟩ =
      { id := svS.id, price := svS.price,
        is_enabled :=
          if svS.is_enabled = true ∧ svS.id ∉ [1] then false
          else if svS.is_enabled = false ∧ svS.id ∈ [1] then true
          else svS.is_enabled } :=
  reconcile_classifies_each_variant [1] [svS] 0 (by decide) (by decide)

/-- C6: if every enabled variant is present in the live snapshot and every
disabled variant is absent, the per-product pass yields no change — for
every client, so no blueprint fetch and no matcher run can influence the
outcome, and no update call is made. -/
theorem no_classification_change_no_update (client : Client) (product : Product)
    (live : List CatalogVariant)
    (hfetch : client.get_blueprint_variants product.blueprint_id product.print_provider_id
      = some live)
    (hsync : ∀ v ∈ product.variants,
      (v.is_enabled = true → v.id ∈ availableIds live) ∧
      (v.is_enabled = false → v.id ∉ availableIds live)) :
    sync_product_step client product = SyncResult.noChange := by
  have hreq : product.variants.any (variantChanged (availableIds live)) = false := by
    rw [List.any_eq_false]
    intro v hv
    rcases hsync v hv with ⟨h1, h2⟩
    cases hb : v.is_enabled with
    | true => simp [variantChanged, hb, h1 hb]
    | false => simp [variantChanged, hb, h2 hb]
  rw [sync_product_step, hfetch]
  simp [hreq]

/-- Witness for C6: product 11 with its variant stocked yields no change. -/
theorem no_classification_change_no_update_witness :
    sync_product_step stockedClient demoProduct = SyncResult.noChange :=
  no_classification_change_no_update stockedClient demoProduct
    [⟨5, [("size", "S")]⟩] rfl (by decide)

/-- C7: when at least one variant changes classification but none is newly
out of stock, the result is the disable/restore list — for every client, so
the matcher is never consulted — and each restocked variant's entry carries
`is_enabled := true`. -/
theorem restock_only_never_attempts_failover (client : Client) (product : Product)
    (live : List CatalogVariant)
    (hfetch : client.get_blueprint_variants product.blueprint_id product.print_provider_id
      = some live)
    (hnoout : ∀ v ∈ product.variants, v.is_enabled = true → v.id ∈ availableIds live)
    (v0 : StoreVariant) (hv0 : v0 ∈ product.variants)
    (hv0e : v0.is_enabled = false) (hv0in : v0.id ∈ availableIds live) :
    sync_product_step client product =
      SyncResult.update (UpdatePayload.variantsOnly
        (variantsForUpdate (availableIds live) product.variants)) ∧
    ∀ v ∈ product.variants, v.is_enabled = false → v.id ∈ availableIds live →
      updateEntry (availableIds live) v =
        { id := v.id, price := v.price, is_enabled := true } := by
  have hreq : product.variants.any (variantChanged (availableIds live)) = true :=
    List.any_eq_true.mpr ⟨v0, hv0, by simp [variantChanged, hv0e, hv0in]⟩
  have hfail : product.variants.any (newlyOutOfStock (availableIds live)) = false := by
    rw [List.any_eq_false]
    intro v hv
    simp only [newlyOutOfStock, decide_eq_true_eq]
    rintro ⟨hb, hnot⟩
    exact hnot (hnoout v hv hb)
  refine ⟨?_, ?_⟩
  · rw [sync_product_step, hfetch]
    simp [hreq, hfail]
  · intro v hv hb hm
    simp [updateEntry, newEnabledStatus, hb, hm]

/-- Witness for C7: product 13 holds a disabled variant that is back in
stock; the output re-enables it without any failover attempt. -/
theorem restock_only_never_attempts_failover_witness :
    sync_product_step stockedClient restockProduct =
      SyncResult.update (UpdatePayload.variantsOnly
        [{ id := 5, price := 1000, is_enabled := true }]) :=
  (restock_only_never_attempts_failover stockedClient restockProduct
    [⟨5, [("size", "S")]⟩] rfl (by decide) svRestock (by decide) rfl (by decide)).1

/-- C3: failover takes precedence.  With at least one variant newly out of
stock and the matcher returning a truthy provider id and a nonempty remapped
list, the payload is the provider switch, not the individually computed
disable list. -/
theorem failover_switch_takes_precedence (client : Client) (product : Product)
    (live : List CatalogVariant) (npid : Nat) (nvs : List PayloadVariant)
    (hfetch : client.get_blueprint_variants product.blueprint_id product.print_provider_id
      = some live)
    (v0 : StoreVariant) (hv0 : v0 ∈ product.variants)
    (hout : newlyOutOfStock (availableIds live) v0 = true)
    (hfo : attempt_provider_failover client product product.variants = (some npid, some nvs))
    (hnz : npid ≠ 0) :
    sync_product_step client product =
      SyncResult.update (UpdatePayload.providerSwitch npid nvs) := by
  have hne : nvs ≠ [] := by
    intro hnil
    have hfo2 := hfo
    rw [attempt_provider_failover] at hfo2
    split at hfo2
    · simp at hfo2
    · obtain ⟨-, catalog, -, hremap⟩ :=
        failoverLoop_eq_some client product.blueprint_id product.print_provider_id
          product.variants _ npid nvs hfo2
      have hlen := remapVariants_eq_some_length catalog product.variants nvs hremap
      rw [hnil] at hlen
      exact List.ne_nil_of_mem hv0 (List.eq_nil_of_length_eq_zero hlen.symm)
  have hfail : product.variants.any (newlyOutOfStock (availableIds live)) = true :=
    List.any_eq_true.mpr ⟨v0, hv0, hout⟩
  have hreq : product.variants.any (variantChanged (availableIds live)) = true := by
    refine List.any_eq_true.mpr ⟨v0, hv0, ?_⟩
    simp only [newlyOutOfStock, decide_eq_true_eq] at hout
    simp [variantChanged, hout.1, hout.2]
  rw [sync_product_step, hfetch]
  simp [hreq, hfail, hfo, hnz, hne]

unseal List.merge List.mergeSort in
/-- Witness for C3: product 11 has its variant out of stock and provider 7
fully matches, so the payload switches providers. -/
theorem failover_switch_takes_precedence_witness :
    sync_product_step demoClient demoProduct =
      SyncResult.update (UpdatePayload.providerSwitch 7
        [{ id := 99, price := 1000, is_enabled := true }]) :=
  failover_switch_takes_precedence demoClient demoProduct [] 7
    [{ id := 99, price := 1000, is_enabled := true }] rfl svS (by decide) (by decide)
    rfl (by decide)

/-- C10: the reconciler applies a returned provider switch only when both
returned components are truthy.  If the matcher succeeds but hands back
provider id 0 or an empty remapped list, the disable/restore fallback is
sent instead of the switch. -/
theorem falsy_switch_falls_back_to_disable_list (client : Client) (product : Product)
    (live : List CatalogVariant) (npid : Nat) (nvs : List PayloadVariant)
    (hfetch : client.get_blueprint_variants product.blueprint_id product.print_provider_id
      = some live)
    (v0 : StoreVariant) (hv0 : v0 ∈ product.variants)
    (hout : newlyOutOfStock (availableIds live) v0 = true)
    (hfo : attempt_provider_failover client product product.variants = (some npid, some nvs))
    (hfalsy : npid = 0 ∨ nvs = []) :
    sync_product_step client product =
      SyncResult.update (UpdatePayload.variantsOnly
        (variantsForUpdate (availableIds live) product.variants)) := by
  have hguard : ¬(npid ≠ 0 ∧ nvs ≠ []) := by
    rintro ⟨h1, h2⟩
    rcases hfalsy with rfl | rfl
    · exact h1 rfl
    · exact h2 rfl
  have hfail : product.variants.any (newlyOutOfStock (availableIds live)) = true :=
    List.any_eq_true.mpr ⟨v0, hv0, hout⟩
  have hreq : product.variants.any (variantChanged (availableIds live)) = true := by
    refine List.any_eq_true.mpr ⟨v0, hv0, ?_⟩
    simp only [newlyOutOfStock, decide_eq_true_eq] at hout
    simp [variantChanged, hout.1, hout.2]
  rw [sync_product_step, hfetch]
  simp [hreq, hfail, hfo, hguard]

unseal List.merge List.mergeSort in
/-- Witness for C10: the only alternative provider has id 0; the matcher
reports success but the reconciler sends the disable list. -/
theorem falsy_switch_falls_back_to_disable_list_witness :
    attempt_provider_failover zeroIdClient demoProduct demoProduct.variants =
      (some 0, some [{ id := 99, price := 1000, is_enabled := true }]) ∧
    sync_product_step zeroIdClient demoProduct =
      SyncResult.update (UpdatePayload.variantsOnly
        [{ id := 5, price := 1000, is_enabled := false }]) :=
  ⟨rfl,
    falsy_switch_falls_back_to_disable_list zeroIdClient demoProduct [] 0
      [{ id := 99, price := 1000, is_enabled := true }] rfl svS (by decide) (by decide)
      rfl (Or.inl rfl)⟩

unseal List.merge List.mergeSort in
/-- C9 counterexample: a store variant with an EMPTY option mapping does
match — its normalized key is the empty tuple, and a candidate catalog
variant whose option mapping is also empty carries the same key, so the
candidate is accepted rather than rejected. -/
theorem empty_options_variant_can_match :
    attempt_provider_failover noOptsClient noOptsProduct [svNoOpts] =
      (some 7, some [{ id := 99, price := 1000, is_enabled := true }]) := rfl

/-- A normalized key is empty exactly when the option mapping is empty. -/
theorem normKey_eq_nil_iff (opts : List (String × String)) :
    normKey opts = [] ↔ opts = [] := by
  constructor
  · intro h
    have hperm := List.mergeSort_perm opts pairLe
    rw [normKey] at h
    rw [h] at hperm
    exact (List.Perm.nil_eq hperm).symm
  · rintro rfl
    simp [normKey]

/-- C9 amended: a store variant with an empty option mapping matches exactly
the candidate variants whose option mapping is also empty; when the
candidate catalog holds no empty-option variant, the lookup fails and the
candidate is rejected wherever that store variant sits in the list. -/
theorem empty_options_match_requires_empty_candidate
    (catalog : List CatalogVariant) (hcat : ∀ cv ∈ catalog, cv.options ≠ [])
    (svs1 svs2 : List StoreVariant) (sv : StoreVariant) (hsv : sv.options = []) :
    lookupByOptions (normKey sv.options) catalog = none ∧
    remapVariants catalog (svs1 ++ sv :: svs2) = none := by
  have hkey : normKey sv.options = [] := by
    rw [hsv]
    simp [normKey]
  have hnone : lookupByOptions (normKey sv.options) catalog = none := by
    rw [lookupByOptions, List.find?_eq_none]
    intro cv hcv
    rw [hkey]
    simp only [decide_eq_true_eq]
    intro hveq
    exact hcat cv (List.mem_reverse.mp hcv) ((normKey_eq_nil_iff cv.options).mp hveq)
  refine ⟨hnone, ?_⟩
  induction svs1 with
  | nil =>
    rw [List.nil_append, remapVariants, hnone]
  | cons s ss ih =>
    rw [List.cons_append, remapVariants]
    rcases hl : lookupByOptions (normKey s.options) catalog with _ | mv
    · rfl
    · simp only [ih]

/-- Witness for the amended C9: a catalog holding only a size-S variant
rejects the empty-option store variant. -/
theorem empty_options_match_requires_empty_candidate_witness :
    (∀ cv ∈ ([⟨99, [("size", "S")]⟩] : List CatalogVariant), cv.options ≠ []) ∧
    remapVariants [⟨99, [("size", "S")]⟩] [svNoOpts] = none :=
  ⟨by decide,
    (empty_options_match_requires_empty_candidate [⟨99, [("size", "S")]⟩] (by decide)
      [] [] svNoOpts rfl).2⟩

end InventorySync
